import Mathlib

/-!
Shallow embedding of the Bloodhound DeKalb County PDF-mining tool
(src/tool.py, src/pdf_miner_fixed.py, src/manual_pdf_analyzer.py).

Page text is modelled as a `List Char` (Python strings are sequences of
code points, and slicing `text[a:b]` is `(text.take b).drop a`).  The
external regular-expression engine (Python's `re` module) is modelled as
a semantic parameter: a pattern string is interpreted by a function
`List Char → Nat → Option Nat` returning, for a given subject and start
position, the end position of the match attempted at that position (or
`none`).  `re.finditer`'s scanning loop (leftmost scan, resume after the
end of a non-empty match, advance one position after an empty match) is
embedded explicitly as `finditer` below.
-/

namespace Bloodhound

/-- One discovered document reference: the dictionary built by
`extract_pdf_links` with keys url / text / date_str / filename. -/
structure PdfInfo where
  url : String
  text : String
  date_str : String
  filename : String
deriving DecidableEq, Repr

/-- One keyword match record as appended by `search_keywords_in_text`
(the dictionary with keys committee / pdf_filename / pdf_date / page /
priority / keyword_pattern / matched_text / context / url). -/
structure Finding where
  committee : String
  pdf_filename : String
  pdf_date : String
  page : Nat
  priority : String
  keyword_pattern : String
  matched_text : List Char
  context : List Char
  url : String
deriving DecidableEq, Repr

/-- Python `str.strip()`: drop leading and trailing whitespace. -/
def pyStrip (l : List Char) : List Char :=
  ((l.dropWhile Char.isWhitespace).reverse.dropWhile Char.isWhitespace).reverse

/-- Helper for Python `str.split()` with no separator: accumulate the
current (reversed) word while scanning. -/
def splitWsAux : List Char → List Char → List (List Char)
  | acc, [] => if acc = [] then [] else [acc.reverse]
  | acc, c :: rest =>
    if c.isWhitespace then
      (if acc = [] then [] else [acc.reverse]) ++ splitWsAux [] rest
    else
      splitWsAux (c :: acc) rest

/-- Python `str.split()` with no separator: split on runs of whitespace,
discarding empty pieces. -/
def splitWs (l : List Char) : List (List Char) := splitWsAux [] l

/-- Python `' '.join(words)`. -/
def joinWords : List (List Char) → List Char
  | [] => []
  | [w] => w
  | w :: ws => w ++ ' ' :: joinWords ws

/-- The context window construction of `search_keywords_in_text`
(src/tool.py lines 284-289): `start = max(0, match.start() - 300)`,
`end = min(len(text), match.end() + 300)`, then
`' '.join(text[start:end].strip().split())`.  Note `max 0 (ms - 300)`
is truncated subtraction on `Nat`. -/
def contextOf (text : List Char) (ms me : Nat) : List Char :=
  let start := ms - 300
  let stop := min text.length (me + 300)
  joinWords (splitWs (pyStrip ((text.take stop).drop start)))

/-- The scanning loop of `re.finditer`: try a match at each position from
left to right; after a match `(pos, e)` resume at `e` (or `pos + 1` if the
match was empty); stop once the position passes the end of the subject.
`fuel` is an upper bound on the number of loop steps (each step advances
the position by at least one). -/
def finditerAux (m : Nat → Option Nat) (n : Nat) : Nat → Nat → List (Nat × Nat)
  | 0, _ => []
  | fuel + 1, pos =>
    if n < pos then []
    else
      match m pos with
      | none => finditerAux m n fuel (pos + 1)
      | some e => (pos, e) :: finditerAux m n fuel (max e (pos + 1))

/-- All matches of a compiled pattern (modelled as its match-at-position
semantics `m`) over a subject of length `n`, in `re.finditer` order. -/
def finditer (m : Nat → Option Nat) (n : Nat) : List (Nat × Nat) :=
  finditerAux m n (n + 1) 0

/-- The match dictionary appended for one regex match `(s, e)` on one page
(src/tool.py lines 291-301): `matched_text` is `match.group()`, i.e.
`text[s:e]`, and `context` is the collapsed 300-character window. -/
def mkFinding (text : List Char) (pageNum : Nat) (info : PdfInfo)
    (committee priority pattern : String) (s e : Nat) : Finding :=
  { committee := committee
    pdf_filename := info.filename
    pdf_date := info.date_str
    page := pageNum
    priority := priority
    keyword_pattern := pattern
    matched_text := (text.take e).drop s
    context := contextOf text s e
    url := info.url }

/-- `DeKalbPDFMiner.search_keywords_in_text` (src/tool.py lines 274-303,
identical in src/pdf_miner_fixed.py lines 326-355): iterate the priority
tiers in catalog order, the patterns of each tier in list order, and the
matches of each pattern in `finditer` order, appending one record per
match.  `sem` interprets a pattern string as its match semantics (the
`re` engine with `IGNORECASE | DOTALL`). -/
def search_keywords_in_text (sem : String → List Char → Nat → Option Nat)
    (keywords : List (String × List String)) (text : List Char)
    (pageNum : Nat) (info : PdfInfo) (committee : String) : List Finding :=
  keywords.flatMap fun pr =>
    pr.2.flatMap fun pat =>
      (finditer (sem pat text) text.length).map fun me =>
        mkFinding text pageNum info committee pr.1 pat me.1 me.2

/-- The same triple loop as `search_keywords_in_text`, additionally
recording for every emitted record its generation key: (tier index,
pattern index within the tier, match start offset). -/
def searchKeywordsKeyed (sem : String → List Char → Nat → Option Nat)
    (keywords : List (String × List String)) (text : List Char)
    (pageNum : Nat) (info : PdfInfo) (committee : String) :
    List ((Nat × Nat × Nat) × Finding) :=
  keywords.enum.flatMap fun ti =>
    ti.2.2.enum.flatMap fun pi =>
      (finditer (sem pi.2 text) text.length).map fun me =>
        ((ti.1, pi.1, me.1), mkFinding text pageNum info committee ti.2.1 pi.2 me.1 me.2)

/-- Strict lexicographic order on (tier index, pattern index, match start). -/
def keyLT (a b : Nat × Nat × Nat) : Prop :=
  a.1 < b.1 ∨ (a.1 = b.1 ∧ (a.2.1 < b.2.1 ∨ (a.2.1 = b.2.1 ∧ a.2.2 < b.2.2)))

/-- The property that a character list contains no run of two or more
consecutive space characters. -/
def noTwoSpaces (l : List Char) : Prop :=
  List.Chain' (fun a b => ¬(a = ' ' ∧ b = ' ')) l

/-- A concrete regular-expression semantics used for test inputs: the
pattern matches as a literal (non-empty) string. -/
def litSem (pat : String) (text : List Char) (pos : Nat) : Option Nat :=
  if !pat.toList.isEmpty && pat.toList.isPrefixOf (text.drop pos) then
    some (pos + pat.toList.length)
  else none

/-- A concrete semantics in which two distinct pattern strings have the
same matches (as two overlapping regexes can), for multiplicity tests. -/
def twoPatSem (_pat : String) (text : List Char) (pos : Nat) : Option Nat :=
  litSem "hamm" text pos

/-- A sample document reference. -/
def info0 : PdfInfo :=
  { url := "https://dekalbcounty.org/a.pdf", text := "A", date_str := "Unknown",
    filename := "a.pdf" }

/-! ## Extraction Pipeline (src/tool.py lines 222-272, src/manual_pdf_analyzer.py lines 71-91)

A PDF document is modelled by what each extraction library reports for it:
whether opening the document raises, and, per page, either the value
returned by `page.extract_text()` (a string or `None`) or an exception
raised while extracting that page. -/

/-- The outcome of `page.extract_text()` (or `pytesseract.image_to_string`)
for one page: a returned value (`some text` / `none` for a `None` return),
or an exception raised while processing that page. -/
inductive PageOutcome
  | ok (text : Option (List Char))
  | exc
deriving DecidableEq

/-- A document as seen by the three extraction strategies of
`DeKalbPDFMiner.extract_text_from_pdf`: `plumberOpen` is false when
`pdfplumber.open` itself raises, `pypdfOpen` is false when opening the
file or constructing `PyPDF2.PdfReader` raises, `ocrConvert` is false
when `pdf2image.convert_from_path` raises. -/
structure PdfDoc where
  plumberOpen : Bool
  plumberPages : List PageOutcome
  pypdfOpen : Bool
  pypdfPages : List PageOutcome
  ocrConvert : Bool
  ocrPages : List PageOutcome

/-- A document as seen by `ManualPDFAnalyzer.extract_text_from_pdf`
(PyPDF2 only). -/
structure ManualDoc where
  openOk : Bool
  pages : List PageOutcome

/-- The page-retention test `text and len(text.strip()) > 50` of every
extraction loop in the repository. -/
def retainedText : Option (List Char) → Bool
  | none => false
  | some t => !t.isEmpty && decide (50 < (pyStrip t).length)

/-- One strategy's page loop as written in `DeKalbPDFMiner`
(src/tool.py lines 229-232, 238-241, 262-266): pages are numbered from
`i`, retained pages are appended, and an exception on any page aborts the
rest of the loop (there is no per-page handler), keeping the pages
appended so far; the second component records whether an exception
occurred. -/
def runStageAbort : Nat → List PageOutcome → List (Nat × List Char) × Bool
  | _, [] => ([], false)
  | _, .exc :: _ => ([], true)
  | i, .ok o :: rest =>
    let r := runStageAbort (i + 1) rest
    ((if retainedText o then [(i, o.getD [])] else []) ++ r.1, r.2)

/-- One strategy's page loop as written in `ManualPDFAnalyzer`
(src/manual_pdf_analyzer.py lines 80-86): each page's extraction is
wrapped in its own handler, so an exception on one page merely skips that
page and the loop continues. -/
def runStageIsolated : Nat → List PageOutcome → List (Nat × List Char)
  | _, [] => []
  | i, .exc :: rest => runStageIsolated (i + 1) rest
  | i, .ok o :: rest =>
    (if retainedText o then [(i, o.getD [])] else []) ++ runStageIsolated (i + 1) rest

/-- The result of `DeKalbPDFMiner.extract_text_from_pdf` together with
which fallback strategies were invoked. -/
structure ExtractResult where
  pages : List (Nat × List Char)
  pypdfInvoked : Bool
  ocrInvoked : Bool
deriving DecidableEq

namespace DeKalbPDFMiner

/-- `DeKalbPDFMiner.ocr_pdf` (src/tool.py lines 253-272): convert the
document to images and OCR each; the whole body is wrapped in one
handler, so a conversion failure yields no pages and a per-page OCR
exception keeps only the pages appended before it. -/
def ocr_pdf (doc : PdfDoc) : List (Nat × List Char) :=
  if doc.ocrConvert then (runStageAbort 1 doc.ocrPages).1 else []

/-- `DeKalbPDFMiner.extract_text_from_pdf` (src/tool.py lines 222-251):
try pdfplumber; if that retained no pages, try PyPDF2; if still nothing,
OCR.  The whole chain sits in one `try`, so an exception anywhere
(including opening with pdfplumber, or a single page of either text
strategy) ends the chain and returns whatever was retained so far.
The two flags record whether the PyPDF2 stage and the OCR stage were
entered. -/
def extract_text_from_pdf (doc : PdfDoc) : ExtractResult :=
  if !doc.plumberOpen then
    { pages := [], pypdfInvoked := false, ocrInvoked := false }
  else
    let r1 := runStageAbort 1 doc.plumberPages
    if r1.2 then
      { pages := r1.1, pypdfInvoked := false, ocrInvoked := false }
    else if !r1.1.isEmpty then
      { pages := r1.1, pypdfInvoked := false, ocrInvoked := false }
    else if !doc.pypdfOpen then
      { pages := [], pypdfInvoked := true, ocrInvoked := false }
    else
      let r2 := runStageAbort 1 doc.pypdfPages
      if r2.2 then
        { pages := r2.1, pypdfInvoked := true, ocrInvoked := false }
      else if !r2.1.isEmpty then
        { pages := r2.1, pypdfInvoked := true, ocrInvoked := false }
      else
        { pages := ocr_pdf doc, pypdfInvoked := true, ocrInvoked := true }

/-- The pages the pdfplumber stage retains for a document (including the
case where an exception cut the stage short). -/
def plumberRetained (doc : PdfDoc) : List (Nat × List Char) :=
  if doc.plumberOpen then (runStageAbort 1 doc.plumberPages).1 else []

/-- The pages the PyPDF2 stage retains for a document. -/
def pypdfRetained (doc : PdfDoc) : List (Nat × List Char) :=
  if doc.pypdfOpen then (runStageAbort 1 doc.pypdfPages).1 else []

end DeKalbPDFMiner

namespace ManualPDFAnalyzer

/-- `ManualPDFAnalyzer.extract_text_from_pdf`
(src/manual_pdf_analyzer.py lines 71-91): PyPDF2 with a per-page
exception handler; a failure opening the document yields no pages. -/
def extract_text_from_pdf (doc : ManualDoc) : List (Nat × List Char) :=
  if doc.openOk then runStageIsolated 1 doc.pages else []

end ManualPDFAnalyzer

/-! ## Fetch Engine (src/pdf_miner_fixed.py lines 197-230, 268-294;
src/tool.py lines 200-220) -/

/-- An HTTP response, characterized by its status code. -/
structure Response where
  status : Nat
deriving DecidableEq

/-- The outcome of one `session.get` attempt: a response, or a
transport-level exception. -/
inductive Attempt
  | ok (r : Response)
  | exc
deriving DecidableEq

namespace DeKalbPDFMiner

/-- The retry loop of `get_page_with_retry`
(src/pdf_miner_fixed.py lines 199-230).  `responses attempt` is the
server's behaviour for the given URL on that attempt.  Status 200 returns
the response; 403 sleeps, clears cookies and retries; any other status
reaches `raise_for_status()`, which raises for 4xx/5xx (caught by the
handler, which retries) and otherwise falls through to the next loop
iteration — every branch other than 200 retries, differing only in
side effects (sleeps, cookie clearing).  A transport exception also
retries.  Exhausting the loop returns `None`. -/
def getPageAux (responses : Nat → Attempt) : Nat → Nat → Option Response
  | _, 0 => none
  | attempt, remaining + 1 =>
    match responses attempt with
    | .ok r => if r.status = 200 then some r else getPageAux responses (attempt + 1) remaining
    | .exc => getPageAux responses (attempt + 1) remaining

/-- `DeKalbPDFMiner.get_page_with_retry` (src/pdf_miner_fixed.py lines
197-230), starting from attempt 0 with `max_retries` attempts. -/
def get_page_with_retry (responses : Nat → Attempt) (max_retries : Nat) : Option Response :=
  getPageAux responses 0 max_retries

/-- `DeKalbPDFMiner.download_pdf` (src/tool.py lines 200-220,
src/pdf_miner_fixed.py lines 268-294; the latter only adds a sleep and a
header rotation before the request).  `fs` is the local filesystem
(path to file bytes), `net` the outcome of `session.get` plus
`raise_for_status` and the streamed write (`none` for any exception).
Returns the boolean result, the filesystem after the call, and the
number of network requests issued. -/
def download_pdf (fs : String → Option (List Nat)) (net : Option (List Nat))
    (save_path : String) : Bool × (String → Option (List Nat)) × Nat :=
  if (fs save_path).isSome then (true, fs, 0)
  else
    match net with
    | some bytes => (true, fun p => if p = save_path then some bytes else fs p, 1)
    | none => (false, fs, 1)

/-- The environment a committee run sees: the server's behaviour for the
two listing pages, the document links parsed from each listing when its
fetch succeeds, and the download / extraction outcome per document. -/
structure CommitteeEnv where
  mainResp : Nat → Attempt
  archResp : Nat → Attempt
  mainLinks : List PdfInfo
  archLinks : List PdfInfo
  download : PdfInfo → Bool
  docPages : PdfInfo → List (Nat × List Char)

/-- `DeKalbPDFMiner.extract_pdf_links` (src/pdf_miner_fixed.py lines
232-266): fetch the listing page with `get_page_with_retry` (3 attempts);
a `None` result is logged and yields the empty list; otherwise the page
is parsed into document links. -/
def extract_pdf_links (responses : Nat → Attempt) (links : List PdfInfo) : List PdfInfo :=
  match get_page_with_retry responses 3 with
  | none => []
  | some _ => links

/-- The per-document loop of `process_committee`
(src/pdf_miner_fixed.py lines 370-377): for each link, download (cache
aware); on success, extract pages and run the keyword search on each,
extending `self.results`; a failed download is simply skipped. -/
def processDocs (sem : String → List Char → Nat → Option Nat)
    (keywords : List (String × List String)) (committeeName : String)
    (env : CommitteeEnv) (links : List PdfInfo) : List Finding :=
  links.flatMap fun info =>
    if env.download info then
      (env.docPages info).flatMap fun pg =>
        search_keywords_in_text sem keywords pg.2 pg.1 info committeeName
    else []

/-- `DeKalbPDFMiner.process_committee` (src/pdf_miner_fixed.py lines
357-387): fetch and process the current listing, then the archive
listing.  The accumulated `self.results` contributions are the returned
findings; the class keeps no other record of failed fetches or
downloads. -/
def process_committee (sem : String → List Char → Nat → Option Nat)
    (keywords : List (String × List String)) (committeeName : String)
    (env : CommitteeEnv) : List Finding :=
  processDocs sem keywords committeeName env (extract_pdf_links env.mainResp env.mainLinks)
    ++ processDocs sem keywords committeeName env (extract_pdf_links env.archResp env.archLinks)

end DeKalbPDFMiner

/-! ## Catalog construction and scan-time compilation (src/tool.py lines
92-150, 274-303)

Python's `re.finditer(pattern, text, ...)` compiles `pattern` when it is
used; a malformed pattern raises `re.error` there.  The model makes this
explicit: `compile` maps a pattern string to its match semantics, or
`none` when the string is not a valid regular expression. -/

/-- The `results` accumulator and the configuration stored by
`DeKalbPDFMiner.__init__`. -/
structure MinerState where
  base_dir : String
  keywords : List (String × List String)
  results : List Finding

/-- `DeKalbPDFMiner.__init__` (src/tool.py lines 92-153): the keyword
catalog is stored verbatim as literal data; no pattern is compiled or
validated, and construction cannot fail on pattern content (the function
is total). -/
def minerInit (base_dir : String) (keywords : List (String × List String)) : MinerState :=
  { base_dir := base_dir, keywords := keywords, results := [] }

/-- The pattern loop of `search_keywords_in_text` with the scan-time
compilation of `re.finditer` made explicit: a pattern that fails to
compile raises there (`Except.error` carrying the offending pattern),
discarding all matches of the page, exactly as the uncaught `re.error`
does in the source. -/
def scanPatterns (compile : String → Option (List Char → Nat → Option Nat))
    (text : List Char) (pageNum : Nat) (info : PdfInfo) (committee priority : String) :
    List String → Except String (List Finding)
  | [] => .ok []
  | pat :: rest =>
    match compile pat with
    | none => .error pat
    | some m =>
      match scanPatterns compile text pageNum info committee priority rest with
      | .error p => .error p
      | .ok fs =>
        .ok (((finditer (m text) text.length).map fun me =>
          mkFinding text pageNum info committee priority pat me.1 me.2) ++ fs)

/-- The tier loop of `search_keywords_in_text` with scan-time compilation
made explicit. -/
def scanTiers (compile : String → Option (List Char → Nat → Option Nat))
    (text : List Char) (pageNum : Nat) (info : PdfInfo) (committee : String) :
    List (String × List String) → Except String (List Finding)
  | [] => .ok []
  | pr :: rest =>
    match scanPatterns compile text pageNum info committee pr.1 pr.2 with
    | .error p => .error p
    | .ok a =>
      match scanTiers compile text pageNum info committee rest with
      | .error p => .error p
      | .ok b => .ok (a ++ b)

/-- `search_keywords_in_text` with the scan-time compilation of
`re.finditer` made explicit. -/
def search_keywords_checked (compile : String → Option (List Char → Nat → Option Nat))
    (keywords : List (String × List String)) (text : List Char)
    (pageNum : Nat) (info : PdfInfo) (committee : String) : Except String (List Finding) :=
  scanTiers compile text pageNum info committee keywords

/-- The first pattern of the catalog, in tier order then pattern order,
that fails to compile. -/
def firstInvalid (compile : String → Option (List Char → Nat → Option Nat)) :
    List (String × List String) → Option String
  | [] => none
  | pr :: rest =>
    match pr.2.find? (fun p => (compile p).isNone) with
    | some p => some p
    | none => firstInvalid compile rest

/-- A fallback matcher that matches nothing (used to totalize a compile
function on patterns it rejects). -/
def noMatch : List Char → Nat → Option Nat := fun _ _ => none

/-! ## Concrete fixtures for witnesses and counterexamples -/

/-- A compile function under which the string `"("` — which is not a valid
regular expression (Python's `re.compile` raises `re.error: missing ),
unterminated subpattern`) — fails to compile, and every other pattern
matches as a literal. -/
def badCompile : String → Option (List Char → Nat → Option Nat) :=
  fun p => if p = "(" then none else some (litSem p)

/-- A catalog whose second priority-1 pattern is the malformed regular
expression `"("`. -/
def badKeywords : List (String × List String) := [("priority_1", ["hamm", "("])]

/-- A 60-character page text (retained: trimmed length 60 > 50). -/
def longA : List Char := List.replicate 60 'a'

/-- Another 60-character page text. -/
def longB : List Char := List.replicate 60 'b'

/-- A document whose pdfplumber stage raises on page 2, while pages 1 and
3 both extract 60-character texts. -/
def c4Doc : PdfDoc :=
  { plumberOpen := true
    plumberPages := [.ok (some longA), .exc, .ok (some longB)]
    pypdfOpen := true
    pypdfPages := []
    ocrConvert := true
    ocrPages := [] }

/-- A document whose pdfplumber stage retains page 1. -/
def c2Doc : PdfDoc :=
  { plumberOpen := true
    plumberPages := [.ok (some longA)]
    pypdfOpen := true
    pypdfPages := [.ok (some longB)]
    ocrConvert := true
    ocrPages := [.ok (some longB)] }

/-- A manually analyzed document with an exception on page 2. -/
def c3ManualDoc : ManualDoc :=
  { openOk := true, pages := [.ok (some longA), .exc, .ok (some longB)] }

/-- Sample keyword catalog with one tier and one pattern. -/
def kw0 : List (String × List String) := [("priority_1", ["hamm"])]

/-- Sample page text containing one occurrence of the keyword. -/
def sampleText : List Char := "xx hamm yy".toList

/-- Sample page text containing three occurrences of the keyword. -/
def threeText : List Char := "hamm hamm hamm".toList

/-- A second sample document reference. -/
def infoB : PdfInfo :=
  { url := "https://dekalbcounty.org/b.pdf", text := "B", date_str := "01-05-2024",
    filename := "b.pdf" }

/-- A committee whose main listing page always answers 403 and whose
archive listing succeeds with one document containing one match. -/
def env403 : DeKalbPDFMiner.CommitteeEnv :=
  { mainResp := fun _ => .ok { status := 403 }
    archResp := fun _ => .ok { status := 200 }
    mainLinks := [info0]
    archLinks := [infoB]
    download := fun _ => true
    docPages := fun _ => [(1, sampleText)] }

/-- The same committee except the main listing page always answers 500. -/
def env500 : DeKalbPDFMiner.CommitteeEnv :=
  { env403 with mainResp := fun _ => .ok { status := 500 } }

/-- A scanned document: both text strategies retain nothing (page 1 is
too short for pdfplumber, PyPDF2 sees no pages), OCR recovers a page. -/
def ocrDoc : PdfDoc :=
  { plumberOpen := true
    plumberPages := [.ok (some "short".toList)]
    pypdfOpen := true
    pypdfPages := []
    ocrConvert := true
    ocrPages := [.ok (some longB)] }

/-- An empty local filesystem. -/
def fsEmpty : String → Option (List Nat) := fun _ => none

/-- A filesystem already holding a non-empty file at `a.pdf`. -/
def fsA : String → Option (List Nat) := fun p => if p = "a.pdf" then some [7] else none

/-- A server that raises a transport error on the first attempt and then
answers 200. -/
def resp10 : Nat → Attempt := fun n => if n = 0 then .exc else .ok { status := 200 }

/-- Every match produced by the scanning loop starts at or after the
position the loop was resumed from. -/
theorem finditerAux_mem_le (m : Nat → Option Nat) (n : Nat) :
    ∀ fuel pos x, x ∈ finditerAux m n fuel pos → pos ≤ x.1 := by
  intro fuel
  induction fuel with
  | zero => intro pos x hx; simp [finditerAux] at hx
  | succ fuel ih =>
    intro pos x hx
    rw [finditerAux] at hx
    by_cases hn : n < pos
    · simp [hn] at hx
    · rw [if_neg hn] at hx
      cases hm : m pos with
      | none =>
        rw [hm] at hx
        exact Nat.le_of_succ_le (ih (pos + 1) x hx)
      | some e =>
        rw [hm] at hx
        rcases List.mem_cons.mp hx with h | h
        · subst h; exact Nat.le_refl pos
        · have h1 := ih (max e (pos + 1)) x h
          have h2 : pos + 1 ≤ max e (pos + 1) := Nat.le_max_right _ _
          omega

/-- Matches emitted by the scanning loop have strictly increasing start
offsets. -/
theorem finditerAux_pairwise (m : Nat → Option Nat) (n : Nat) :
    ∀ fuel pos,
      List.Pairwise (fun a b : Nat × Nat => a.1 < b.1) (finditerAux m n fuel pos) := by
  intro fuel
  induction fuel with
  | zero => intro pos; simp [finditerAux]
  | succ fuel ih =>
    intro pos
    rw [finditerAux]
    by_cases hn : n < pos
    · simp [hn]
    · rw [if_neg hn]
      cases hm : m pos with
      | none => exact ih (pos + 1)
      | some e =>
        refine List.Pairwise.cons ?_ (ih _)
        intro y hy
        have h1 := finditerAux_mem_le m n fuel (max e (pos + 1)) y hy
        have h2 : pos + 1 ≤ max e (pos + 1) := Nat.le_max_right _ _
        show pos < y.1
        omega

/-- Match start offsets strictly increase over a `finditer` run. -/
theorem finditer_pairwise (m : Nat → Option Nat) (n : Nat) :
    List.Pairwise (fun a b : Nat × Nat => a.1 < b.1) (finditer m n) :=
  finditerAux_pairwise m n (n + 1) 0

/-- A flattened map is pairwise-ordered when each block is and blocks are
pairwise compatible. -/
theorem pairwise_flatMap_of {α β : Type} {R : β → β → Prop} {l : List α} {f : α → List β}
    (h1 : ∀ a ∈ l, (f a).Pairwise R)
    (h2 : l.Pairwise fun a b => ∀ x ∈ f a, ∀ y ∈ f b, R x y) :
    (l.flatMap f).Pairwise R := by
  induction l with
  | nil => simp
  | cons a t ih =>
    rw [List.flatMap_cons, List.pairwise_append]
    rcases List.pairwise_cons.mp h2 with ⟨h2a, h2t⟩
    refine ⟨h1 a (List.mem_cons_self a t), ih (fun b hb => h1 b (List.mem_cons_of_mem a hb)) h2t, ?_⟩
    intro x hx y hy
    rcases List.mem_flatMap.mp hy with ⟨b, hb, hyb⟩
    exact h2a b hb x hx y hyb

/-- Indices in an enumeration strictly increase. -/
theorem pairwise_enumFrom {α : Type} (l : List α) :
    ∀ n, List.Pairwise (fun p q : Nat × α => p.1 < q.1) (List.enumFrom n l) := by
  induction l with
  | nil => intro n; simp
  | cons a t ih =>
    intro n
    rw [List.enumFrom_cons]
    refine List.Pairwise.cons ?_ (ih (n + 1))
    rintro ⟨i, x⟩ hq
    have := (List.mem_enumFrom hq).1
    show n < i
    omega

/-- Dropping the indices of an enumeration before flat-mapping is the same
as flat-mapping the underlying list. -/
theorem map_snd_keyed_inner (sem : String → List Char → Nat → Option Nat)
    (text : List Char) (pageNum : Nat) (info : PdfInfo) (committee prio : String) (i0 : Nat) :
    ∀ (terms : List String) (j : Nat),
      (((List.enumFrom j terms).flatMap fun pi =>
          (finditer (sem pi.2 text) text.length).map fun me =>
            ((i0, pi.1, me.1), mkFinding text pageNum info committee prio pi.2 me.1 me.2)).map
        Prod.snd)
      = terms.flatMap fun pat =>
          (finditer (sem pat text) text.length).map fun me =>
            mkFinding text pageNum info committee prio pat me.1 me.2 := by
  intro terms
  induction terms with
  | nil => intro j; simp
  | cons p t ih =>
    intro j
    rw [List.enumFrom_cons, List.flatMap_cons, List.flatMap_cons, List.map_append, ih (j + 1)]
    simp [List.map_map, Function.comp]

/-- The keyed classification run, with keys erased, over an enumeration
suffix. -/
theorem map_snd_keyed_aux (sem : String → List Char → Nat → Option Nat)
    (text : List Char) (pageNum : Nat) (info : PdfInfo) (committee : String) :
    ∀ (kwl : List (String × List String)) (i : Nat),
      (((List.enumFrom i kwl).flatMap fun ti =>
          ti.2.2.enum.flatMap fun pi =>
            (finditer (sem pi.2 text) text.length).map fun me =>
              ((ti.1, pi.1, me.1), mkFinding text pageNum info committee ti.2.1 pi.2 me.1 me.2)).map
        Prod.snd)
      = kwl.flatMap fun pr =>
          pr.2.flatMap fun pat =>
            (finditer (sem pat text) text.length).map fun me =>
              mkFinding text pageNum info committee pr.1 pat me.1 me.2 := by
  intro kwl
  induction kwl with
  | nil => intro i; simp
  | cons pr t ih =>
    intro i
    rw [List.enumFrom_cons, List.flatMap_cons, List.flatMap_cons, List.map_append, ih (i + 1),
      List.enum_eq_enumFrom,
      map_snd_keyed_inner sem text pageNum info committee pr.1 i pr.2 0]

/-- Erasing the keys of the keyed classification recovers
`search_keywords_in_text`. -/
theorem search_keywords_eq_keyed (sem : String → List Char → Nat → Option Nat)
    (keywords : List (String × List String)) (text : List Char)
    (pageNum : Nat) (info : PdfInfo) (committee : String) :
    search_keywords_in_text sem keywords text pageNum info committee
      = (searchKeywordsKeyed sem keywords text pageNum info committee).map Prod.snd := by
  unfold search_keywords_in_text searchKeywordsKeyed
  rw [List.enum_eq_enumFrom, map_snd_keyed_aux]

/-- The generation keys (tier index, pattern index, match start) of the
classification output are in strictly increasing lexicographic order. -/
theorem searchKeywordsKeyed_pairwise (sem : String → List Char → Nat → Option Nat)
    (keywords : List (String × List String)) (text : List Char)
    (pageNum : Nat) (info : PdfInfo) (committee : String) :
    List.Pairwise (fun x y => keyLT x.1 y.1)
      (searchKeywordsKeyed sem keywords text pageNum info committee) := by
  unfold searchKeywordsKeyed
  refine pairwise_flatMap_of ?_ ?_
  · intro ti _
    refine pairwise_flatMap_of ?_ ?_
    · intro pi _
      rw [List.pairwise_map]
      refine (finditer_pairwise (sem pi.2 text) text.length).imp ?_
      intro a b hab
      exact Or.inr ⟨rfl, Or.inr ⟨rfl, hab⟩⟩
    · refine (List.enum_eq_enumFrom ▸ pairwise_enumFrom ti.2.2 0).imp ?_
      intro pa pb hab x hx y hy
      rcases List.mem_map.mp hx with ⟨mea, _, rfl⟩
      rcases List.mem_map.mp hy with ⟨meb, _, rfl⟩
      exact Or.inr ⟨rfl, Or.inl hab⟩
  · refine (List.enum_eq_enumFrom ▸ pairwise_enumFrom keywords 0).imp ?_
    intro ta tb hab x hx y hy
    rcases List.mem_flatMap.mp hx with ⟨pia, _, hx2⟩
    rcases List.mem_flatMap.mp hy with ⟨pib, _, hy2⟩
    rcases List.mem_map.mp hx2 with ⟨mea, _, rfl⟩
    rcases List.mem_map.mp hy2 with ⟨meb, _, rfl⟩
    exact Or.inl hab

/-- C1: Classification is deterministic and canonically ordered: on
identical inputs `search_keywords_in_text` yields identical ordered
Finding sequences, and the emission order is exactly tier order
outermost, then pattern order within the tier, then match start offset
within the pattern (witnessed by the keyed run, whose (tier index,
pattern index, match start) keys are strictly lexicographically
increasing and which erases to `search_keywords_in_text`). -/
theorem classify_deterministic_and_canonically_ordered
    (sem : String → List Char → Nat → Option Nat)
    (keywords : List (String × List String)) (text : List Char)
    (pageNum : Nat) (info : PdfInfo) (committee : String) :
    search_keywords_in_text sem keywords text pageNum info committee
        = search_keywords_in_text sem keywords text pageNum info committee
      ∧ search_keywords_in_text sem keywords text pageNum info committee
        = (searchKeywordsKeyed sem keywords text pageNum info committee).map Prod.snd
      ∧ List.Pairwise (fun x y => keyLT x.1 y.1)
          (searchKeywordsKeyed sem keywords text pageNum info committee) :=
  ⟨rfl, search_keywords_eq_keyed sem keywords text pageNum info committee,
    searchKeywordsKeyed_pairwise sem keywords text pageNum info committee⟩

/-- The retry loop only ever hands back a response whose status code the
200-test accepted. -/
theorem getPageAux_status (responses : Nat → Attempt) :
    ∀ rem att r, DeKalbPDFMiner.getPageAux responses att rem = some r → r.status = 200 := by
  intro rem
  induction rem with
  | zero => intro att r h; simp [DeKalbPDFMiner.getPageAux] at h
  | succ rem ih =>
    intro att r h
    rw [DeKalbPDFMiner.getPageAux] at h
    cases ha : responses att with
    | ok r2 =>
      rw [ha] at h
      dsimp only at h
      by_cases h200 : r2.status = 200
      · rw [if_pos h200] at h
        cases h
        exact h200
      · rw [if_neg h200] at h
        exact ih (att + 1) r h
    | exc =>
      rw [ha] at h
      dsimp only at h
      exact ih (att + 1) r h

/-- When no attempt ever yields a 200 response, the retry loop exhausts
and returns `none`. -/
theorem getPageAux_none (responses : Nat → Attempt)
    (h : ∀ a r, responses a = .ok r → r.status ≠ 200) :
    ∀ rem att, DeKalbPDFMiner.getPageAux responses att rem = none := by
  intro rem
  induction rem with
  | zero => intro att; rfl
  | succ rem ih =>
    intro att
    rw [DeKalbPDFMiner.getPageAux]
    cases ha : responses att with
    | ok r2 =>
      dsimp only
      rw [if_neg (h att r2 ha)]
      exact ih (att + 1)
    | exc =>
      dsimp only
      exact ih (att + 1)

/-- C10: whenever `get_page_with_retry` returns a non-None response, that
response's HTTP status code is exactly 200; every other outcome retries
and ultimately produces `None`, never a returned non-200 response. -/
theorem retry_returns_only_200 (responses : Nat → Attempt) (max_retries : Nat)
    (r : Response)
    (h : DeKalbPDFMiner.get_page_with_retry responses max_retries = some r) :
    r.status = 200 :=
  getPageAux_status responses max_retries 0 r h

/-- Witness for C10: a run that fails once and then receives a 200
returns that response, and the theorem instantiates on it. -/
theorem retry_returns_only_200_witness :
    DeKalbPDFMiner.get_page_with_retry resp10 3 = some { status := 200 }
      ∧ ({ status := 200 } : Response).status = 200 :=
  ⟨by decide, retry_returns_only_200 resp10 3 { status := 200 } (by decide)⟩

/-- C5: cache idempotence of the fetch+cache path.  If a non-empty file
already exists at the target path, `download_pdf` issues no network
request and returns success; and starting from a cold cache, a
successful call followed by a second call issues exactly one network
request in total (1 on the first call, 0 on the second), both calls
returning success. -/
theorem download_cache_idempotent (fs : String → Option (List Nat))
    (net : Option (List Nat)) (path : String) :
    (∀ b, fs path = some b → b ≠ [] →
        DeKalbPDFMiner.download_pdf fs net path = (true, fs, 0))
      ∧ (fs path = none → ∀ bytes, net = some bytes →
          (DeKalbPDFMiner.download_pdf fs net path).2.2 = 1
            ∧ (DeKalbPDFMiner.download_pdf fs net path).1 = true
            ∧ (DeKalbPDFMiner.download_pdf
                (DeKalbPDFMiner.download_pdf fs net path).2.1 net path).2.2 = 0
            ∧ (DeKalbPDFMiner.download_pdf
                (DeKalbPDFMiner.download_pdf fs net path).2.1 net path).1 = true) := by
  constructor
  · intro b hb _
    unfold DeKalbPDFMiner.download_pdf
    rw [hb]
    rfl
  · intro hnone bytes hbytes
    have h1 : DeKalbPDFMiner.download_pdf fs net path
        = (true, fun p => if p = path then some bytes else fs p, 1) := by
      unfold DeKalbPDFMiner.download_pdf
      rw [hnone, hbytes]
      rfl
    refine ⟨by rw [h1], by rw [h1], ?_, ?_⟩
    · rw [h1]
      unfold DeKalbPDFMiner.download_pdf
      simp
    · rw [h1]
      unfold DeKalbPDFMiner.download_pdf
      simp

/-- Witness for C5: a pre-existing non-empty cached file short-circuits
the download, and a cold-cache double call issues exactly one request. -/
theorem download_cache_idempotent_witness :
    DeKalbPDFMiner.download_pdf fsA (some [1]) "a.pdf" = (true, fsA, 0)
      ∧ (DeKalbPDFMiner.download_pdf fsEmpty (some [1]) "a.pdf").2.2 = 1
      ∧ (DeKalbPDFMiner.download_pdf fsEmpty (some [1]) "a.pdf").1 = true
      ∧ (DeKalbPDFMiner.download_pdf
          (DeKalbPDFMiner.download_pdf fsEmpty (some [1]) "a.pdf").2.1
          (some [1]) "a.pdf").2.2 = 0
      ∧ (DeKalbPDFMiner.download_pdf
          (DeKalbPDFMiner.download_pdf fsEmpty (some [1]) "a.pdf").2.1
          (some [1]) "a.pdf").1 = true := by
  refine ⟨(download_cache_idempotent fsA (some [1]) "a.pdf").1 [7] rfl (by decide), ?_⟩
  exact (download_cache_idempotent fsEmpty (some [1]) "a.pdf").2 rfl [1] rfl

/-- C8 counterexample: two committee runs that differ only in the last
observed HTTP status of the exhausted main-listing fetch (403 versus
500) produce identical `get_page_with_retry` results (`none`, carrying
neither the URL nor the status) and identical coordinator output (the
accumulated findings, which are the only state the class keeps), while
the runs themselves are observably different on attempt 0.  Hence
neither a `FetchFailure(url, lastStatus)` value nor a skip entry
(document URL + last status) is produced anywhere, refuting the claim. -/
theorem fetch_failure_reporting_refuted :
    DeKalbPDFMiner.process_committee litSem kw0 "Highway" env403
        = DeKalbPDFMiner.process_committee litSem kw0 "Highway" env500
      ∧ DeKalbPDFMiner.process_committee litSem kw0 "Highway" env403 ≠ []
      ∧ DeKalbPDFMiner.get_page_with_retry env403.mainResp 3 = none
      ∧ DeKalbPDFMiner.get_page_with_retry env500.mainResp 3 = none
      ∧ env403.mainResp 0 ≠ env500.mainResp 0 :=
  ⟨by decide, by decide, by decide, by decide, by decide⟩

/-- C8 amended: when fetch exhausts its attempts without an HTTP 200, the
result is `None` — carrying neither the URL nor the last observed
status — the affected listing contributes no documents, and
`process_committee` continues with the remaining listing's documents;
no skip entry is recorded (the coordinator's only output is the finding
list). -/
theorem fetch_failure_reporting_amended
    (sem : String → List Char → Nat → Option Nat)
    (keywords : List (String × List String)) (name : String)
    (env : DeKalbPDFMiner.CommitteeEnv)
    (h : ∀ a r, env.mainResp a = .ok r → r.status ≠ 200) :
    DeKalbPDFMiner.get_page_with_retry env.mainResp 3 = none
      ∧ DeKalbPDFMiner.process_committee sem keywords name env
        = DeKalbPDFMiner.processDocs sem keywords name env
            (DeKalbPDFMiner.extract_pdf_links env.archResp env.archLinks) := by
  have hnone : DeKalbPDFMiner.get_page_with_retry env.mainResp 3 = none :=
    getPageAux_none env.mainResp h 3 0
  refine ⟨hnone, ?_⟩
  unfold DeKalbPDFMiner.process_committee
  have hlinks : DeKalbPDFMiner.extract_pdf_links env.mainResp env.mainLinks = [] := by
    unfold DeKalbPDFMiner.extract_pdf_links
    rw [hnone]
  rw [hlinks]
  rfl

/-- A page passing the retention test has trimmed length above 50. -/
theorem retainedText_spec (o : Option (List Char)) (h : retainedText o = true) :
    50 < (pyStrip (o.getD [])).length := by
  cases o with
  | none => simp [retainedText] at h
  | some t =>
    simp only [retainedText, Bool.and_eq_true, decide_eq_true_eq] at h
    exact h.2

/-- Every page kept by an abort-on-exception strategy loop passed the
retention test. -/
theorem runStageAbort_retained (ps : List PageOutcome) :
    ∀ (i : Nat) (p : Nat × List Char),
      p ∈ (runStageAbort i ps).1 → 50 < (pyStrip p.2).length := by
  induction ps with
  | nil => intro i p hp; simp [runStageAbort] at hp
  | cons o rest ih =>
    intro i p hp
    cases o with
    | exc => simp [runStageAbort] at hp
    | ok t =>
      simp only [runStageAbort] at hp
      by_cases hr : retainedText t = true
      · rw [if_pos hr] at hp
        rcases List.mem_append.mp hp with h1 | h2
        · rw [List.mem_singleton.mp h1]
          exact retainedText_spec t hr
        · exact ih (i + 1) p h2
      · rw [if_neg hr] at hp
        simp only [List.nil_append] at hp
        exact ih (i + 1) p hp

/-- Every page kept by the per-page-isolated strategy loop passed the
retention test. -/
theorem runStageIsolated_retained (ps : List PageOutcome) :
    ∀ (i : Nat) (p : Nat × List Char),
      p ∈ runStageIsolated i ps → 50 < (pyStrip p.2).length := by
  induction ps with
  | nil => intro i p hp; simp [runStageIsolated] at hp
  | cons o rest ih =>
    intro i p hp
    cases o with
    | exc =>
      rw [runStageIsolated] at hp
      exact ih (i + 1) p hp
    | ok t =>
      rw [runStageIsolated] at hp
      by_cases hr : retainedText t = true
      · rw [if_pos hr] at hp
        rcases List.mem_append.mp hp with h1 | h2
        · rw [List.mem_singleton.mp h1]
          exact retainedText_spec t hr
        · exact ih (i + 1) p h2
      · rw [if_neg hr] at hp
        simp only [List.nil_append] at hp
        exact ih (i + 1) p hp

/-- C3: every `ExtractedPage` retained by `extract_text_from_pdf` — under
any of the three strategies of `DeKalbPDFMiner` and also under
`ManualPDFAnalyzer` — has text whose trimmed length is strictly greater
than 50 characters. -/
theorem retained_pages_exceed_threshold (doc : PdfDoc) (mdoc : ManualDoc) :
    (∀ p ∈ (DeKalbPDFMiner.extract_text_from_pdf doc).pages,
        50 < (pyStrip p.2).length)
      ∧ (∀ p ∈ ManualPDFAnalyzer.extract_text_from_pdf mdoc,
          50 < (pyStrip p.2).length) := by
  constructor
  · intro p hp
    by_cases h1 : doc.plumberOpen = true
    · by_cases h2 : (runStageAbort 1 doc.plumberPages).2 = true
      · simp [DeKalbPDFMiner.extract_text_from_pdf, h1, h2] at hp
        exact runStageAbort_retained _ _ p hp
      · by_cases h3 : (runStageAbort 1 doc.plumberPages).1 = []
        · by_cases h4 : doc.pypdfOpen = true
          · by_cases h5 : (runStageAbort 1 doc.pypdfPages).2 = true
            · simp [DeKalbPDFMiner.extract_text_from_pdf, h1, h2, h3, h4, h5] at hp
              exact runStageAbort_retained _ _ p hp
            · by_cases h6 : (runStageAbort 1 doc.pypdfPages).1 = []
              · simp [DeKalbPDFMiner.extract_text_from_pdf, DeKalbPDFMiner.ocr_pdf,
                  h1, h2, h3, h4, h5, h6] at hp
                by_cases h7 : doc.ocrConvert = true
                · simp [h7] at hp
                  exact runStageAbort_retained _ _ p hp
                · simp [h7] at hp
              · simp [DeKalbPDFMiner.extract_text_from_pdf, h1, h2, h3, h4, h5, h6] at hp
                exact runStageAbort_retained _ _ p hp
          · simp [DeKalbPDFMiner.extract_text_from_pdf, h1, h2, h3, h4] at hp
        · simp [DeKalbPDFMiner.extract_text_from_pdf, h1, h2, h3] at hp
          exact runStageAbort_retained _ _ p hp
    · simp [DeKalbPDFMiner.extract_text_from_pdf, h1] at hp
  · intro p hp
    unfold ManualPDFAnalyzer.extract_text_from_pdf at hp
    split_ifs at hp
    · exact runStageIsolated_retained _ _ p hp
    · simp at hp

/-- Witness for C3: a concrete retained 60-character page satisfies the
threshold. -/
theorem retained_pages_exceed_threshold_witness : 50 < (pyStrip longA).length :=
  (retained_pages_exceed_threshold c2Doc c3ManualDoc).1 (1, longA) (by decide)

/-- C2: the fallback chain short-circuits.  If the pdfplumber stage
retains at least one page, the PyPDF2 stage and the OCR stage are not
entered; and the OCR stage is entered only when the pdfplumber and the
PyPDF2 stages together retained zero pages. -/
theorem extraction_fallback_short_circuits (doc : PdfDoc) :
    (DeKalbPDFMiner.plumberRetained doc ≠ [] →
        (DeKalbPDFMiner.extract_text_from_pdf doc).pypdfInvoked = false
          ∧ (DeKalbPDFMiner.extract_text_from_pdf doc).ocrInvoked = false)
      ∧ ((DeKalbPDFMiner.extract_text_from_pdf doc).ocrInvoked = true →
          DeKalbPDFMiner.plumberRetained doc = []
            ∧ DeKalbPDFMiner.pypdfRetained doc = []) := by
  by_cases h1 : doc.plumberOpen = true
  · by_cases h2 : (runStageAbort 1 doc.plumberPages).2 = true
    · simp [DeKalbPDFMiner.extract_text_from_pdf, DeKalbPDFMiner.plumberRetained, h1, h2]
    · by_cases h3 : (runStageAbort 1 doc.plumberPages).1 = []
      · by_cases h4 : doc.pypdfOpen = true
        · by_cases h5 : (runStageAbort 1 doc.pypdfPages).2 = true
          · simp [DeKalbPDFMiner.extract_text_from_pdf, DeKalbPDFMiner.plumberRetained,
              h1, h2, h3, h4, h5]
          · by_cases h6 : (runStageAbort 1 doc.pypdfPages).1 = []
            · simp [DeKalbPDFMiner.extract_text_from_pdf, DeKalbPDFMiner.plumberRetained,
                DeKalbPDFMiner.pypdfRetained, h1, h2, h3, h4, h5, h6]
            · simp [DeKalbPDFMiner.extract_text_from_pdf, DeKalbPDFMiner.plumberRetained,
                h1, h2, h3, h4, h5, h6]
        · simp [DeKalbPDFMiner.extract_text_from_pdf, DeKalbPDFMiner.plumberRetained,
            h1, h2, h3, h4]
      · simp [DeKalbPDFMiner.extract_text_from_pdf, DeKalbPDFMiner.plumberRetained,
          h1, h2, h3]
  · simp [DeKalbPDFMiner.extract_text_from_pdf, DeKalbPDFMiner.plumberRetained, h1]

/-- Witness for C2: on a document whose pdfplumber stage retains a page,
neither fallback is entered; on a scanned document that reaches OCR,
both text stages retained nothing. -/
theorem extraction_fallback_short_circuits_witness :
    ((DeKalbPDFMiner.extract_text_from_pdf c2Doc).pypdfInvoked = false
        ∧ (DeKalbPDFMiner.extract_text_from_pdf c2Doc).ocrInvoked = false)
      ∧ (DeKalbPDFMiner.plumberRetained ocrDoc = []
        ∧ DeKalbPDFMiner.pypdfRetained ocrDoc = []) :=
  ⟨(extraction_fallback_short_circuits c2Doc).1 (by decide),
    (extraction_fallback_short_circuits ocrDoc).2 (by decide)⟩

/-- C4 counterexample: in `DeKalbPDFMiner.extract_text_from_pdf`
(src/tool.py) a page-level exception does abort the remaining pages of
the strategy.  For `c4Doc`, page 2 raises while pages 1 and 3 both carry
retainable 60-character texts; the function returns only page 1 — page 3
is silently dropped even though it passes the retention test (third
conjunct: the per-page-isolated loop of `ManualPDFAnalyzer` would have
kept pages 1 and 3).  This refutes the claim that extraction of the
remaining pages of the document continues. -/
theorem page_failure_isolation_refuted :
    (DeKalbPDFMiner.extract_text_from_pdf c4Doc).pages.map Prod.fst = [1]
      ∧ retainedText (some longB) = true
      ∧ (ManualPDFAnalyzer.extract_text_from_pdf
          { openOk := true, pages := c4Doc.plumberPages }).map Prod.fst = [1, 3] :=
  ⟨by decide, by decide, by decide⟩

/-- Replacing a raising page by a page with no text does not change the
result of the per-page-isolated loop: the raising page is skipped and
the loop continues. -/
theorem runStageIsolated_exc_skip :
    ∀ (pre : List PageOutcome) (i : Nat) (post : List PageOutcome),
      runStageIsolated i (pre ++ .exc :: post)
        = runStageIsolated i (pre ++ .ok none :: post) := by
  intro pre
  induction pre with
  | nil => intro i post; simp [runStageIsolated, retainedText]
  | cons o rest ih =>
    intro i post
    cases o with
    | exc => simp only [List.cons_append, runStageIsolated]; exact ih (i + 1) post
    | ok t =>
      simp only [List.cons_append, runStageIsolated, List.append_eq]
      rw [ih (i + 1) post]

/-- An exception inside an abort-on-exception strategy loop ends the loop:
the result keeps exactly the pages retained before the raising page, and
nothing after it. -/
theorem runStageAbort_exc_abort :
    ∀ (pre : List PageOutcome) (i : Nat) (post : List PageOutcome),
      runStageAbort i (pre ++ .exc :: post) = ((runStageAbort i pre).1, true) := by
  intro pre
  induction pre with
  | nil => intro i post; simp [runStageAbort]
  | cons o rest ih =>
    intro i post
    cases o with
    | exc => simp [runStageAbort]
    | ok t =>
      simp only [List.cons_append, runStageAbort, List.append_eq]
      rw [ih (i + 1) post]

/-- C4 amended: page-level failure isolation holds for
`ManualPDFAnalyzer.extract_text_from_pdf` (a raising page behaves
exactly like a page with no text: it is skipped and the remaining pages
are still extracted), while in `DeKalbPDFMiner` (src/tool.py and
src/pdf_miner_fixed.py) a page-level exception aborts the remaining
pages of that strategy's loop, keeping only the pages retained before
it. -/
theorem page_failure_isolation_amended :
    (∀ (op : Bool) (pre post : List PageOutcome),
        ManualPDFAnalyzer.extract_text_from_pdf { openOk := op, pages := pre ++ .exc :: post }
          = ManualPDFAnalyzer.extract_text_from_pdf
              { openOk := op, pages := pre ++ .ok none :: post })
      ∧ (∀ (i : Nat) (pre post : List PageOutcome),
          runStageAbort i (pre ++ .exc :: post) = ((runStageAbort i pre).1, true)) := by
  constructor
  · intro op pre post
    unfold ManualPDFAnalyzer.extract_text_from_pdf
    cases op
    · rfl
    · simp only [if_true]
      exact runStageIsolated_exc_skip pre 1 post
  · exact fun i pre post => runStageAbort_exc_abort pre i post

/-- The pattern loop with scan-time compilation errors on the first
pattern (in list order) that fails to compile, and otherwise yields the
matches of every pattern in order. -/
theorem scanPatterns_eq (compile : String → Option (List Char → Nat → Option Nat))
    (text : List Char) (pageNum : Nat) (info : PdfInfo) (committee priority : String) :
    ∀ terms : List String,
      scanPatterns compile text pageNum info committee priority terms
        = match terms.find? (fun p => (compile p).isNone) with
          | some p => Except.error p
          | none => Except.ok (terms.flatMap fun pat =>
              (finditer ((compile pat).getD noMatch text) text.length).map fun me =>
                mkFinding text pageNum info committee priority pat me.1 me.2) := by
  intro terms
  induction terms with
  | nil => rfl
  | cons pat rest ih =>
    rw [scanPatterns]
    cases hc : compile pat with
    | none =>
      have hn : (compile pat).isNone = true := by rw [hc]; rfl
      rw [List.find?_cons, hn]
    | some m =>
      have hn : (compile pat).isNone = false := by rw [hc]; rfl
      rw [ih, List.find?_cons, hn]
      cases hf : rest.find? (fun p => (compile p).isNone) with
      | some p => rfl
      | none =>
        dsimp only
        rw [List.flatMap_cons, hc]
        rfl

/-- The tier loop with scan-time compilation errors on the first invalid
pattern of the catalog, in tier order then pattern order; when every
pattern compiles, it agrees with `search_keywords_in_text`. -/
theorem scanTiers_eq (compile : String → Option (List Char → Nat → Option Nat))
    (text : List Char) (pageNum : Nat) (info : PdfInfo) (committee : String) :
    ∀ kw : List (String × List String),
      scanTiers compile text pageNum info committee kw
        = match firstInvalid compile kw with
          | some p => Except.error p
          | none => Except.ok (search_keywords_in_text
              (fun p => (compile p).getD noMatch) kw text pageNum info committee) := by
  intro kw
  induction kw with
  | nil => rfl
  | cons pr rest ih =>
    rw [scanTiers, scanPatterns_eq, firstInvalid]
    cases hf : pr.2.find? (fun p => (compile p).isNone) with
    | some p => rfl
    | none =>
      dsimp only
      rw [ih]
      cases hrest : firstInvalid compile rest with
      | some p => rfl
      | none =>
        simp [search_keywords_in_text, List.flatMap_cons]

/-- C9 counterexample: the catalog `badKeywords` contains the string
`"("`, which is not a valid regular expression, yet constructing the
miner succeeds and stores the catalog verbatim — there is no failure at
catalog-load time.  The failure instead surfaces in the middle of
scanning page text: the checked classification run raises on the
malformed pattern (after the valid pattern `"hamm"` of the same tier has
already been scanned), refuting the claim that the system fails at
catalog-construction time. -/
theorem malformed_pattern_load_time_refuted :
    minerInit "dekalb_pdfs" badKeywords
        = { base_dir := "dekalb_pdfs", keywords := badKeywords, results := [] }
      ∧ (badCompile "(").isNone = true
      ∧ search_keywords_checked badCompile badKeywords sampleText 1 info0 "Highway"
        = Except.error "(" :=
  ⟨rfl, by decide, by rfl⟩

/-- C9 amended: malformed patterns are not detected when the catalog is
constructed — `minerInit` is total and stores the pattern strings
without validation — and a pattern that is not a valid regular
expression instead raises during classification, when the scan reaches
the first invalid pattern in tier order then pattern order. -/
theorem malformed_pattern_fails_at_scan_time (base_dir : String)
    (compile : String → Option (List Char → Nat → Option Nat))
    (kw : List (String × List String)) (text : List Char)
    (pageNum : Nat) (info : PdfInfo) (committee : String) :
    minerInit base_dir kw = { base_dir := base_dir, keywords := kw, results := [] }
      ∧ search_keywords_checked compile kw text pageNum info committee
        = match firstInvalid compile kw with
          | some p => Except.error p
          | none => Except.ok (search_keywords_in_text
              (fun p => (compile p).getD noMatch) kw text pageNum info committee) :=
  ⟨rfl, scanTiers_eq compile text pageNum info committee kw⟩


/-- Every word produced by the split helper is non-empty and contains no
whitespace character. -/
theorem splitWsAux_good :
    ∀ (l acc : List Char), (∀ c ∈ acc, ¬c.isWhitespace = true) →
      ∀ w ∈ splitWsAux acc l, w ≠ [] ∧ ∀ c ∈ w, ¬c.isWhitespace = true := by
  intro l
  induction l with
  | nil =>
    intro acc hacc w hw
    rw [splitWsAux] at hw
    by_cases ha : acc = []
    · simp [ha] at hw
    · rw [if_neg ha] at hw
      rw [List.mem_singleton.mp hw]
      refine ⟨fun h => ha (List.reverse_eq_nil_iff.mp h), ?_⟩
      intro c hc
      exact hacc c (List.mem_reverse.mp hc)
  | cons c0 rest ih =>
    intro acc hacc w hw
    rw [splitWsAux] at hw
    by_cases hws : c0.isWhitespace = true
    · rw [if_pos hws] at hw
      rcases List.mem_append.mp hw with h1 | h2
      · by_cases ha : acc = []
        · simp [ha] at h1
        · rw [if_neg ha] at h1
          rw [List.mem_singleton.mp h1]
          refine ⟨fun h => ha (List.reverse_eq_nil_iff.mp h), ?_⟩
          intro c hc
          exact hacc c (List.mem_reverse.mp hc)
      · exact ih [] (by simp) w h2
    · rw [if_neg hws] at hw
      refine ih (c0 :: acc) ?_ w hw
      intro c hc
      rcases List.mem_cons.mp hc with rfl | hc2
      · exact hws
      · exact hacc c hc2

/-- A list without space characters trivially has no double space. -/
theorem noTwoSpaces_of_no_space : ∀ l : List Char, (∀ c ∈ l, c ≠ ' ') → noTwoSpaces l := by
  intro l
  induction l with
  | nil => intro _; exact List.chain'_nil
  | cons a t ih =>
    intro h
    unfold noTwoSpaces
    rw [List.chain'_cons']
    refine ⟨?_, ih fun c hc => h c (List.mem_cons_of_mem a hc)⟩
    intro y _ hy
    exact h a (List.mem_cons_self a t) hy.1

/-- The head of a non-trivial join is the head of the first word. -/
theorem joinWords_head_cons (w : List Char) (ws : List (List Char)) (hw : w ≠ []) :
    (joinWords (w :: ws)).head? = w.head? := by
  cases ws with
  | nil => rfl
  | cons w2 ws2 =>
    cases w with
    | nil => exact absurd rfl hw
    | cons a t => rfl

/-- Joining non-empty whitespace-free words with single spaces yields a
list with no run of two or more consecutive spaces. -/
theorem joinWords_noTwoSpaces :
    ∀ ws : List (List Char),
      (∀ w ∈ ws, w ≠ [] ∧ ∀ c ∈ w, ¬c.isWhitespace = true) →
      noTwoSpaces (joinWords ws) := by
  intro ws
  induction ws with
  | nil => intro _; exact List.chain'_nil
  | cons w ws2 ih =>
    intro h
    have hw := h w (List.mem_cons_self w ws2)
    have hnosp : ∀ c ∈ w, c ≠ ' ' := by
      intro c hc hsp
      exact hw.2 c hc (hsp ▸ (by decide : (' ' : Char).isWhitespace = true))
    cases ws2 with
    | nil => exact noTwoSpaces_of_no_space w hnosp
    | cons w2 ws3 =>
      have hjw : joinWords (w :: w2 :: ws3) = w ++ ' ' :: joinWords (w2 :: ws3) := rfl
      rw [hjw]
      unfold noTwoSpaces
      rw [List.chain'_append]
      refine ⟨noTwoSpaces_of_no_space w hnosp, ?_, ?_⟩
      · rw [List.chain'_cons']
        refine ⟨?_, ih fun v hv => h v (List.mem_cons_of_mem w hv)⟩
        intro y hy hc
        have hw2 := h w2 (List.mem_cons_of_mem w (List.mem_cons_self w2 ws3))
        rw [joinWords_head_cons w2 ws3 hw2.1] at hy
        exact hw2.2 y (List.mem_of_mem_head? hy)
          (hc.2 ▸ (by decide : (' ' : Char).isWhitespace = true))
      · intro x hx y hy hc
        exact hw.2 x (List.mem_of_mem_getLast? hx)
          (hc.1 ▸ (by decide : (' ' : Char).isWhitespace = true))

set_option maxRecDepth 4000 in
/-- C6: the emitted context is the whitespace-collapsed window of the 300
characters before and after the match span, clipped to the page bounds.
The window is exactly the in-bounds slice (its length and its indexing
never reach outside the page text), and the collapsed result contains no
run of two or more consecutive space characters. -/
theorem context_window_correct (text : List Char) (ms me : Nat) :
    contextOf text ms me
        = joinWords (splitWs (pyStrip
            ((text.take (min text.length (me + 300))).drop (ms - 300))))
      ∧ ((text.take (min text.length (me + 300))).drop (ms - 300)).length
        = min text.length (me + 300) - (ms - 300)
      ∧ (∀ i : Nat, ((text.take (min text.length (me + 300))).drop (ms - 300))[i]?
          = if ms - 300 + i < min text.length (me + 300) then text[ms - 300 + i]? else none)
      ∧ noTwoSpaces (contextOf text ms me) := by
  refine ⟨rfl, ?_, ?_, ?_⟩
  · rw [List.length_drop, List.length_take]
    omega
  · intro i
    rw [List.getElem?_drop, List.getElem?_take]
  · have h0 : contextOf text ms me
        = joinWords (splitWs (pyStrip
            ((text.take (min text.length (me + 300))).drop (ms - 300)))) := rfl
    rw [h0, splitWs]
    exact joinWords_noTwoSpaces _
      (splitWsAux_good
        (pyStrip ((text.take (min text.length (me + 300))).drop (ms - 300))) []
        (by simp))

set_option maxRecDepth 4000 in
/-- C7: classification emits exactly one Finding per (pattern,
match-occurrence) pair and never merges Findings: the output length is
the sum, over tiers and patterns, of the pattern's match count.
Concretely, a page with three occurrences of one pattern yields three
Findings, and a span matched by two different patterns yields two
Findings, each carrying its own pattern identity, with identical
matched text. -/
theorem finding_multiplicity (sem : String → List Char → Nat → Option Nat)
    (keywords : List (String × List String)) (text : List Char)
    (pageNum : Nat) (info : PdfInfo) (committee : String) :
    (search_keywords_in_text sem keywords text pageNum info committee).length
        = (keywords.map fun pr =>
            (pr.2.map fun pat => (finditer (sem pat text) text.length).length).sum).sum
      ∧ (search_keywords_in_text litSem kw0 threeText 1 info0 "X").length = 3
      ∧ (search_keywords_in_text twoPatSem [("priority_1", ["pA", "pB"])]
          "hamm".toList 1 info0 "X").map (fun f => f.keyword_pattern) = ["pA", "pB"]
      ∧ (search_keywords_in_text twoPatSem [("priority_1", ["pA", "pB"])]
          "hamm".toList 1 info0 "X").map (fun f => f.matched_text)
        = ["hamm".toList, "hamm".toList] := by
  refine ⟨?_, by decide, by decide, by decide⟩
  simp [search_keywords_in_text, List.length_flatMap, List.map_map, Function.comp_def,
    List.length_map]

/-- Witness for C8 amended: instantiated on the committee whose main
listing always answers 403. -/
theorem fetch_failure_reporting_amended_witness :
    DeKalbPDFMiner.get_page_with_retry env403.mainResp 3 = none
      ∧ DeKalbPDFMiner.process_committee litSem kw0 "Highway" env403
        = DeKalbPDFMiner.processDocs litSem kw0 "Highway" env403
            (DeKalbPDFMiner.extract_pdf_links env403.archResp env403.archLinks) :=
  fetch_failure_reporting_amended litSem kw0 "Highway" env403
    (by
      intro a r hr
      simp only [env403] at hr
      injection hr with h2
      subst h2
      decide)

end Bloodhound
